import Mathlib

/-!
Shallow embedding of the Second Brain content-management backend
(Express + MongoDB + Pinecone) and proofs of its specification claims.

Modelling conventions:
* Mongo ObjectIds are modelled as naturals handed out by a monotone counter
  `nextId`, so creation order coincides with id order and Mongo's
  `sort(_id: -1)` is "sort by `id` descending".
* The Pinecone vector id is `Content._id.toString()` in the source; since
  `toString` is injective on ids we keep it as the same natural.
* Similarity scores are rationals; the index's similarity measure is an
  opaque parameter `sim`.
* Fallible external effects (Mongo save, Pinecone upsert/delete) are driven
  by explicit success flags so that each failure path of the source can be
  exercised.
-/

namespace SecondBrain

/-- A `Content` document, after `contentSchema` in db.ts: link, type, title,
youtubeTitle, youtubeDescription, thumbnailUrl, embeddingId (optional
Pinecone vector reference), tags (list of Tag ObjectIds, as stored — the
schema does not deduplicate), userId (owner). -/
structure Content where
  id : Nat
  link : String
  type : String
  title : String
  youtubeTitle : String
  youtubeDescription : String
  thumbnailUrl : String
  embeddingId : Option Nat
  tags : List Nat
  userId : Nat
deriving Repr, DecidableEq

/-- A `Tag` document, after `tagSchema` in db.ts: a unique title. -/
structure Tag where
  id : Nat
  title : String
deriving Repr, DecidableEq

/-- A `User` document, after `userSchema` in db.ts (password omitted:
authentication is an out-of-scope collaborator). -/
structure User where
  id : Nat
  username : String
  isShared : Bool
deriving Repr, DecidableEq

/-- One record of the Pinecone index: id, vector values and the metadata bag
written by the upsert in the add-content handler. -/
structure VectorRecord where
  id : Nat
  values : List ℚ
  metaUserId : Nat
  metaLink : String
  metaType : String
  metaTitle : String
deriving Repr, DecidableEq

/-- Combined state of the two stores (Mongo collections and the Pinecone
namespace `__default__`) plus the ObjectId counter. -/
structure St where
  contents : List Content
  tags : List Tag
  users : List User
  vectors : List VectorRecord
  nextId : Nat
deriving Repr, DecidableEq

/-- `[a-zA-Z0-9_-]`, the character class of the video-id capture group. -/
def isVideoIdChar (c : Char) : Bool :=
  c.isAlphanum || c = '_' || c = '-'

/-- Take the 11-character video id starting here, if the next 11 characters
all lie in the capture-group class. -/
def take11 (cs : List Char) : Option String :=
  let cand := cs.take 11
  if cand.length = 11 && cand.all isVideoIdChar then some (String.mk cand)
  else none

/-- Scan for an occurrence of `?v=` or `&v=` followed by an 11-character
video id (the `youtube.com` alternative of the source regex; `.*` makes any
occurrence after `youtube.com` acceptable — matchability agrees with the
greedy JS semantics, only the choice among several valid occurrences could
differ, which no property here depends on). -/
def findVParam : List Char → Option String
  | [] => none
  | c :: rest =>
    if (c = '?' || c = '&') && "v=".toList.isPrefixOf rest then
      match take11 (rest.drop 2) with
      | some v => some v
      | none => findVParam rest
    else findVParam rest

/-- Left-to-right scan for either regex alternative. -/
def scanYouTube : List Char → Option String
  | [] => none
  | c :: rest =>
    if "youtube.com".toList.isPrefixOf (c :: rest) then
      match findVParam (rest.drop 10) with
      | some v => some v
      | none => scanYouTube rest
    else if "youtu.be/".toList.isPrefixOf (c :: rest) then
      match take11 (rest.drop 8) with
      | some v => some v
      | none => scanYouTube rest
    else scanYouTube rest

/-- `extractYouTubeVideoId` of the source: match the URL against
`(?:youtube\.com.*(?:\?|&)v=|youtu\.be\/)([a-zA-Z0-9_-]{11})` and return the
captured 11-character id, or `none`. -/
def extractYouTubeVideoId (url : String) : Option String :=
  scanYouTube url.toList

/-- `getTagIds` of the source: for each tag title in order, find the Tag by
exact title or create and persist a new one, and collect its ObjectId. -/
def getTagIds : List String → St → List Nat × St
  | [], st => ([], st)
  | tagTitle :: rest, st =>
    match st.tags.find? (fun tg => tg.title == tagTitle) with
    | some tagDoc =>
      let r := getTagIds rest st
      (tagDoc.id :: r.1, r.2)
    | none =>
      let tagDoc : Tag := ⟨st.nextId, tagTitle⟩
      let st1 : St := { st with tags := st.tags ++ [tagDoc], nextId := st.nextId + 1 }
      let r := getTagIds rest st1
      (tagDoc.id :: r.1, r.2)

/-- The snippet fields the add-content handler reads from the YouTube
metadata lookup (`thumbnailUrl` already carries the `|| ""` default). -/
structure YtSnippet where
  title : String
  description : String
  thumbnailUrl : String
deriving Repr, DecidableEq

/-- Outcome of the POST /api/v1/content handler. -/
inductive AddResult
  /-- 400 "Invalid YouTube link." -/
  | invalidSource
  /-- 404 "YouTube video not found." -/
  | sourceNotFound
  /-- 201 with the saved content. -/
  | created (c : Content)
  /-- 500 "Server error." — the single catch-all of the handler. -/
  | serverError
deriving Repr, DecidableEq

/-- Pinecone upsert: replace any record with the same id, else append. -/
def upsertVector (vecs : List VectorRecord) (r : VectorRecord) : List VectorRecord :=
  vecs.filter (fun v => v.id != r.id) ++ [r]

/-- Mongoose `save` on an already-persisted document: replace it in place. -/
def saveContent (cs : List Content) (c : Content) : List Content :=
  cs.map (fun x => if x.id == c.id then c else x)

/-- The POST /api/v1/content handler. `ytLookup` is the external YouTube
metadata collaborator (`none` = empty `items`), `embed` the embedding
client; `createOk`, `upsertOk`, `setRefOk` drive whether the Mongo create,
the Pinecone upsert and the second (backfill) save succeed — a `false` makes
the corresponding await throw into the handler's catch-all. Steps in source
order: resolve tags, extract video id, external lookup, embed, create
document, upsert vector, backfill `embeddingId`. -/
def addItem (ytLookup : String → Option YtSnippet) (embed : String → List ℚ)
    (createOk upsertOk setRefOk : Bool) (userId : Nat)
    (link type title : String) (tagTitles : List String) (st : St) :
    AddResult × St :=
  let r := getTagIds tagTitles st
  let tagIds := r.1
  let st1 := r.2
  match extractYouTubeVideoId link with
  | none => (.invalidSource, st1)
  | some videoId =>
    match ytLookup videoId with
    | none => (.sourceNotFound, st1)
    | some snip =>
      let vec := embed (title ++ "," ++ snip.title ++ "," ++ snip.description)
      if createOk then
        let c : Content :=
          ⟨st1.nextId, link, type, title, snip.title, snip.description,
            snip.thumbnailUrl, none, tagIds, userId⟩
        let st2 : St :=
          { st1 with contents := st1.contents ++ [c], nextId := st1.nextId + 1 }
        if upsertOk then
          let rec1 : VectorRecord := ⟨c.id, vec, userId, link, type, title⟩
          let st3 : St := { st2 with vectors := upsertVector st2.vectors rec1 }
          if setRefOk then
            let c2 : Content := { c with embeddingId := some c.id }
            let st4 : St := { st3 with contents := saveContent st3.contents c2 }
            (.created c2, st4)
          else (.serverError, st3)
        else (.serverError, st2)
      else (.serverError, st1)

/-- The empty state. -/
def St.empty : St := ⟨[], [], [], [], 0⟩

/-- `Math.max(1, Number(req.query.page) || 1)`: a missing or non-numeric
query value is NaN (modelled `none`), and NaN and 0 are falsy so `|| 1`
applies; then the lower clamp to 1. -/
def effectivePage (q : Option Int) : Int :=
  max 1 (match q with
    | none => 1
    | some n => if n = 0 then 1 else n)

/-- `Math.min(8, Number(req.query.limit) || 8)`: NaN and 0 fall back to 8,
then only an UPPER clamp to 8 is applied — there is no lower clamp. -/
def effectiveLimit (q : Option Int) : Int :=
  min 8 (match q with
    | none => 8
    | some n => if n = 0 then 8 else n)

/-- `sort(_id: -1)`: most-recently-created first, ids being monotone in
creation time. -/
def recentFirst (a b : Content) : Prop := b.id ≤ a.id

instance : DecidableRel recentFirst := fun a b => inferInstanceAs (Decidable (b.id ≤ a.id))

instance : IsTotal Content recentFirst :=
  ⟨fun a b => (Nat.le_total b.id a.id).imp id id⟩

instance : IsTrans Content recentFirst :=
  ⟨fun _ _ _ h1 h2 => Nat.le_trans h2 h1⟩

/-- The GET /api/v1/content handler (pagination): filter by owner, sort by
`_id` descending, `skip((page-1)*limit)`, `limit(limit)`. -/
def listItems (st : St) (userId : Nat) (pageQ limitQ : Option Int) : List Content :=
  let page := effectivePage pageQ
  let limit := effectiveLimit limitQ
  ((((st.contents.filter (fun c => c.userId == userId)).insertionSort
      recentFirst).drop ((page - 1) * limit).toNat).take limit.toNat)

/-- Outcome of the DELETE /api/v1/content handler. -/
inductive DeleteResult
  /-- 400 "contentId is required". -/
  | badRequest
  /-- 404 "Content not found". -/
  | notFound
  /-- 403 "Forbidden: Cannot delete content you do not own". -/
  | forbidden
  /-- 200 "Delete succeeded". -/
  | ok
deriving Repr, DecidableEq

/-- The tag sweep of the delete handler: for each tag id of the deleted
content, if no content other than `cid` references it, delete the Tag. -/
def sweepTags (contents : List Content) (cid : Nat) :
    List Nat → List Tag → List Tag
  | [], tags => tags
  | tagId :: rest, tags =>
    if contents.any (fun c => c.id != cid && c.tags.contains tagId) then
      sweepTags contents cid rest tags
    else
      sweepTags contents cid rest (tags.filter (fun tg => tg.id != tagId))

/-- The DELETE /api/v1/content handler: require `contentId`, load (404 if
absent), ownership check (403), best-effort Pinecone delete (`pineconeOk` =
whether the vector delete succeeds; a failure is caught and tolerated), tag
sweep, then delete the document. -/
def deleteItem (pineconeOk : Bool) (userId : Nat) (contentIdQ : Option Nat)
    (st : St) : DeleteResult × St :=
  match contentIdQ with
  | none => (.badRequest, st)
  | some cid =>
    match st.contents.find? (fun c => c.id == cid) with
    | none => (.notFound, st)
    | some content =>
      if content.userId != userId then (.forbidden, st)
      else
        let vecs :=
          match content.embeddingId with
          | some eid =>
            if pineconeOk then st.vectors.filter (fun v => v.id != eid)
            else st.vectors
          | none => st.vectors
        let tags1 := sweepTags st.contents cid content.tags st.tags
        let contents1 := st.contents.filter (fun c => c.id != cid)
        (.ok, { st with contents := contents1, tags := tags1, vectors := vecs })

/-- Score order for the index's reply: highest similarity first. -/
def scoreDesc (a b : Nat × ℚ) : Prop := b.2 ≤ a.2

instance : DecidableRel scoreDesc := fun a b => inferInstanceAs (Decidable (b.2 ≤ a.2))

instance : IsTotal (Nat × ℚ) scoreDesc := ⟨fun a b => le_total b.2 a.2⟩

instance : IsTrans (Nat × ℚ) scoreDesc := ⟨fun _ _ _ h1 h2 => le_trans h2 h1⟩

/-- Modelled from the spec: the Pinecone index is an external collaborator
and only its client calls appear under src. Spec §4.4: `query(vector, topK)`
returns an ordered sequence of (id, similarity score), highest first,
length at most topK; `sim` is the index's similarity measure on vectors. -/
def vectorQuery (sim : List ℚ → List ℚ → ℚ) (vecs : List VectorRecord)
    (v : List ℚ) (topK : Nat) : List (Nat × ℚ) :=
  ((vecs.map (fun r => (r.id, sim v r.values))).insertionSort scoreDesc).take topK

/-- `Content.find(embeddingId: $in ids, userId)` with which the search
handler hydrates matches: items whose vector reference lies in `ids` AND
whose owner matches (a document without `embeddingId` matches no `$in`). -/
def findByVectorRefs (st : St) (ids : List Nat) (userId : Nat) : List Content :=
  st.contents.filter (fun c =>
    (match c.embeddingId with
      | some e => ids.contains e
      | none => false) && c.userId == userId)

/-- Outcome of the GET /api/v1/search handler. -/
inductive SearchResult
  /-- 400 "Missing or invalid query parameter q". -/
  | badRequest
  /-- 200 with the hydrated results. -/
  | ok (results : List Content)
deriving Repr, DecidableEq

/-- The fixed similarity threshold 0.4 of the search handler, written as
the rational 2/5 in normal form (numerator 2, denominator 5) so that it
reduces definitionally. -/
def scoreThreshold : ℚ := ⟨2, 5, by decide, by decide⟩

/-- The GET /api/v1/search handler: validate `q` (absent or empty is falsy,
hence 400), embed the query, ask the index for the top 5, filter to
score ≥ 0.4, return `results: []` when nothing passes, else hydrate from
Mongo scoped to the requesting owner. -/
def search (sim : List ℚ → List ℚ → ℚ) (embed : String → List ℚ)
    (st : St) (userId : Nat) (q : Option String) : SearchResult :=
  match q with
  | none => .badRequest
  | some queryText =>
    if queryText = "" then .badRequest
    else
      let queryEmbedding := embed queryText
      let queryMatches := vectorQuery sim st.vectors queryEmbedding 5
      let filteredMatches := queryMatches.filter (fun m => scoreThreshold ≤ m.2)
      if filteredMatches.isEmpty then .ok []
      else .ok (findByVectorRefs st (filteredMatches.map (fun m => m.1)) userId)

/-- The projection served by the shared-brain view: tag titles only;
`embeddingId` and `userId` are deliberately absent (commented out in the
source as internal/sensitive). -/
structure SharedItemView where
  id : Nat
  type : String
  link : String
  title : String
  youtubeTitle : String
  youtubeDescription : String
  thumbnailUrl : String
  tags : List String
deriving Repr, DecidableEq

/-- Outcome of the GET /api/v1/brain/share/:shareLink handler. -/
inductive ShareViewResult
  /-- 404 with the given error message. -/
  | notFound (msg : String)
  /-- 200 with username and formatted contents. -/
  | ok (username : String) (content : List SharedItemView)
deriving Repr, DecidableEq

/-- The single 404 message of the shared-view handler, used both when the
owner does not exist and when sharing is disabled. -/
def sharedNotFoundMsg : String := "Shared brain not found or sharing disabled."

/-- Format one content document for the shared view (`populate` drops tag
ids that resolve to no Tag document). -/
def formatContent (tags : List Tag) (c : Content) : SharedItemView :=
  ⟨c.id, c.type, c.link, c.title, c.youtubeTitle, c.youtubeDescription,
    c.thumbnailUrl,
    c.tags.filterMap (fun tid =>
      (tags.find? (fun tg => tg.id == tid)).map (fun tg => tg.title))⟩

/-- The GET /api/v1/brain/share/:shareLink handler: look the owner up by id;
if absent OR not shared, 404 with one fixed message; else return the
username and every content of that owner, formatted. -/
def getSharedView (st : St) (shareLink : Nat) : ShareViewResult :=
  match st.users.find? (fun u => u.id == shareLink) with
  | none => .notFound sharedNotFoundMsg
  | some user =>
    if user.isShared then
      .ok user.username
        ((st.contents.filter (fun c => c.userId == user.id)).map
          (formatContent st.tags))
    else .notFound sharedNotFoundMsg

/-!
Embedding service (embeddingService.ts). `getEmbedding` keeps the model in
a module-level `embedder` variable:
  if (!embedder) embedder = await pipeline(...)
JavaScript runs the code between two awaits atomically, so one call splits
into atomic segments: the null check (which, finding null, invokes
`pipeline` and suspends on the await) and the resumption (which stores the
loaded model). We model each caller as a program counter and the module as
the flag plus a count of `pipeline` invocations.
-/

/-- A caller's position inside `getEmbedding`: `entry` = about to test
`!embedder`; `awaitingLoad` = suspended on `await pipeline(...)`;
`ready` = past initialization. -/
inductive CallerPc
  | entry
  | awaitingLoad
  | ready
deriving Repr, DecidableEq

/-- Module state of embeddingService: whether `embedder` is non-null, and
how many times `pipeline` has been invoked in this process. -/
structure EmbedderState where
  embedderSet : Bool
  loads : Nat
deriving Repr, DecidableEq

/-- Module state plus the concurrent callers of `getEmbedding`. -/
structure EmbedSys where
  st : EmbedderState
  callers : List CallerPc
deriving Repr, DecidableEq

/-- Advance caller `i` by one atomic segment of `getEmbedding`. At `entry`,
if `embedder` is already set the caller skips initialization; otherwise it
invokes `pipeline` (one more load) and suspends. At `awaitingLoad` the load
resolves and the caller assigns `embedder`. -/
def embedStep (sys : EmbedSys) (i : Nat) : EmbedSys :=
  match sys.callers.get? i with
  | none => sys
  | some .entry =>
    if sys.st.embedderSet then
      { sys with callers := sys.callers.set i .ready }
    else
      { st := ⟨sys.st.embedderSet, sys.st.loads + 1⟩,
        callers := sys.callers.set i .awaitingLoad }
  | some .awaitingLoad =>
    { st := ⟨true, sys.st.loads⟩, callers := sys.callers.set i .ready }
  | some .ready => sys

/-- Run a schedule: a list of caller indices, each taking one atomic step. -/
def embedRun (sys : EmbedSys) : List Nat → EmbedSys
  | [] => sys
  | i :: rest => embedRun (embedStep sys i) rest

/-- Fresh process with `n` callers about to call `getEmbedding`. -/
def initialEmbedSys (n : Nat) : EmbedSys :=
  ⟨⟨false, 0⟩, List.replicate n .entry⟩

/-- The schedule in which the callers run strictly one after another
(caller 0 runs to completion, then caller 1, ...): no overlap. -/
def seqSchedule (n : Nat) : List Nat :=
  ((List.range n).map (fun i => [i, i])).flatten

/-! Concrete fixtures used to instantiate the theorems below. -/

/-- A metadata collaborator that finds every video. -/
def demoLookup : String → Option YtSnippet :=
  fun _ => some ⟨"yt title", "yt description", "thumb"⟩

/-- A constant embedding client. -/
def demoEmbed : String → List ℚ := fun _ => [1]

/-- A metadata collaborator that finds nothing. -/
def noLookup : String → Option YtSnippet := fun _ => none

/-- A constant similarity measure. -/
def demoSim : List ℚ → List ℚ → ℚ := fun _ _ => 1

/-- A link the video-id extractor accepts. -/
def goodLink : String := "https://youtu.be/abc12345678"

/-- A link the video-id extractor rejects. -/
def badLink : String := "not-a-youtube-link"

/-- A content of owner 1, indexed under vector id 1. -/
def demoContent : Content :=
  ⟨1, goodLink, "video", "demo", "yt", "yd", "u", some 1, [0], 1⟩

/-- A content of owner 2, indexed under vector id 2. -/
def demoOther : Content :=
  ⟨2, goodLink, "video", "other", "yt", "yd", "u", some 2, [0], 2⟩

/-- Two owners (1 shared, 2 not), one item each, both vectors indexed. -/
def demoSt : St :=
  ⟨[demoContent, demoOther], [⟨0, "x"⟩],
    [⟨1, "alice", true⟩, ⟨2, "bob", false⟩],
    [⟨1, [1], 1, goodLink, "video", "demo"⟩,
      ⟨2, [1], 2, goodLink, "video", "other"⟩], 3⟩

/-- An add-item request whose link fails validation but whose tag list
introduces a new tag title. -/
def c3run : AddResult × St :=
  addItem demoLookup demoEmbed true true true 7 badLink "video" "demo"
    ["newtag"] St.empty

/-- A valid add-item request whose Pinecone upsert fails. -/
def c4runUpsertFail : AddResult × St :=
  addItem demoLookup demoEmbed true false true 7 goodLink "video" "demo"
    ["x"] St.empty

/-- An add-item request whose Mongo create itself fails. -/
def c4runCreateFail : AddResult × St :=
  addItem demoLookup demoEmbed false true true 7 goodLink "video" "demo"
    ["x"] St.empty

/-- A valid add-item request with a duplicated tag title. -/
def c8run : AddResult × St :=
  addItem demoLookup demoEmbed true true true 7 goodLink "video" "demo"
    ["x", "x"] St.empty

/-- Two items of owner 1 sharing tag 0. -/
def gcContent1 : Content :=
  ⟨1, goodLink, "video", "first", "yt", "yd", "u", none, [0], 1⟩

/-- Second item sharing tag 0 with `gcContent1`. -/
def gcContent2 : Content :=
  ⟨2, goodLink, "video", "second", "yt", "yd", "u", none, [0], 1⟩

/-- State with the two tag-sharing items. -/
def gcSt : St := ⟨[gcContent1, gcContent2], [⟨0, "x"⟩], [⟨1, "alice", true⟩], [], 3⟩

/-- State after owner 1 deletes the first of the two tag-sharing items. -/
def gcSt1 : St := (deleteItem true 1 (some 1) gcSt).2

/-! Theorems. -/

/-- C7: a delete of an absent item fails NotFound, a delete of an item the
caller does not own fails Forbidden, and in both cases the whole state
(document store, tag store, vector index) is returned unchanged — the
ownership check precedes every mutating step. -/
theorem deleteItem_absent_or_foreign_no_mutation
    (pineconeOk : Bool) (userId cid : Nat) (st : St) :
    (st.contents.find? (fun c => c.id == cid) = none →
      deleteItem pineconeOk userId (some cid) st = (.notFound, st)) ∧
    (∀ content, st.contents.find? (fun c => c.id == cid) = some content →
      content.userId ≠ userId →
      deleteItem pineconeOk userId (some cid) st = (.forbidden, st)) := by
  constructor
  · intro h
    simp [deleteItem, h]
  · intro content h hne
    simp [deleteItem, h, hne]

/-- Witness for C7 on the demo state: item 99 is absent, item 1 belongs to
owner 1, and caller 2 gets NotFound resp. Forbidden with no state change. -/
theorem deleteItem_absent_or_foreign_no_mutation_witness :
    deleteItem true 2 (some 99) demoSt = (.notFound, demoSt) ∧
    deleteItem true 2 (some 1) demoSt = (.forbidden, demoSt) :=
  ⟨(deleteItem_absent_or_foreign_no_mutation true 2 99 demoSt).1 (by decide),
    (deleteItem_absent_or_foreign_no_mutation true 2 1 demoSt).2 demoContent
      (by decide) (by decide)⟩

/-- C9: the shared view succeeds precisely for an existing owner whose
shared flag is set, returning the username and every item of that owner in
the projected form (tag titles only; the projection type has no owner
identifier and no vector-reference field); an absent owner and an unshared
owner both produce the one fixed NotFound response, which is therefore
indistinguishable between the two cases. -/
theorem getSharedView_spec (st : St) (oid : Nat) :
    (∀ u, st.users.find? (fun x => x.id == oid) = some u → u.isShared = true →
      getSharedView st oid =
        .ok u.username
          ((st.contents.filter (fun c => c.userId == u.id)).map
            (formatContent st.tags))) ∧
    (st.users.find? (fun x => x.id == oid) = none →
      getSharedView st oid = .notFound sharedNotFoundMsg) ∧
    (∀ u, st.users.find? (fun x => x.id == oid) = some u → u.isShared = false →
      getSharedView st oid = .notFound sharedNotFoundMsg) := by
  refine ⟨?_, ?_, ?_⟩
  · intro u hu hs
    simp [getSharedView, hu, hs]
  · intro h
    simp [getSharedView, h]
  · intro u hu hs
    simp [getSharedView, hu, hs]

/-- Witness for C9 on the demo state: owner 1 is shared and gets the full
projected listing, owner 99 is absent and owner 2 is unshared — and both
failures are the very same response value. -/
theorem getSharedView_spec_witness :
    getSharedView demoSt 1 =
      .ok "alice"
        ((demoSt.contents.filter (fun c => c.userId == 1)).map
          (formatContent demoSt.tags)) ∧
    getSharedView demoSt 99 = .notFound sharedNotFoundMsg ∧
    getSharedView demoSt 2 = .notFound sharedNotFoundMsg :=
  ⟨(getSharedView_spec demoSt 1).1 ⟨1, "alice", true⟩ (by decide) rfl,
    (getSharedView_spec demoSt 99).2.1 (by decide),
    (getSharedView_spec demoSt 2).2.2 ⟨2, "bob", false⟩ (by decide) rfl⟩

/-- Every hydrated search result satisfies the Mongo filter, in particular
the ownership conjunct. -/
theorem findByVectorRefs_owner (st : St) (ids : List Nat) (uid : Nat) :
    ∀ c ∈ findByVectorRefs st ids uid, c.userId = uid := by
  intro c hc
  have h := (List.mem_filter.mp hc).2
  simp only [Bool.and_eq_true] at h
  exact eq_of_beq h.2

/-- C2: search, listItems and findByVectorRefs scope every returned item to
the requesting owner — whatever the stores and the index contain, an item
of another owner is never returned. -/
theorem owner_isolation (sim : List ℚ → List ℚ → ℚ) (embed : String → List ℚ)
    (st : St) (uid : Nat) (q : Option String) (pageQ limitQ : Option Int)
    (ids : List Nat) :
    (∀ res, search sim embed st uid q = .ok res → ∀ c ∈ res, c.userId = uid) ∧
    (∀ c ∈ listItems st uid pageQ limitQ, c.userId = uid) ∧
    (∀ c ∈ findByVectorRefs st ids uid, c.userId = uid) := by
  refine ⟨?_, ?_, findByVectorRefs_owner st ids uid⟩
  · intro res h c hc
    cases q with
    | none => simp [search] at h
    | some qt =>
      by_cases hq : qt = ""
      · simp [search, hq] at h
      · simp only [search, if_neg hq] at h
        split at h
        · injection h with h2
          subst h2
          cases hc
        · injection h with h2
          subst h2
          exact findByVectorRefs_owner st _ uid c hc
  · intro c hc
    simp only [listItems] at hc
    have h1 : c ∈ (st.contents.filter
        (fun x => x.userId == uid)).insertionSort recentFirst :=
      List.mem_of_mem_drop (List.mem_of_mem_take hc)
    have h2 : c ∈ st.contents.filter (fun x => x.userId == uid) :=
      (List.perm_insertionSort recentFirst _).mem_iff.mp h1
    exact eq_of_beq (List.mem_filter.mp h2).2

/-- Witness for C2 on the demo state: owner 1 searches, lists and hydrates,
and in every case the demo item that comes back belongs to owner 1. -/
theorem owner_isolation_witness : demoContent.userId = 1 ∧ demoContent.userId = 1 ∧ demoContent.userId = 1 :=
  ⟨(owner_isolation demoSim demoEmbed demoSt 1 (some "q") none none [1]).1
      [demoContent] (by decide) demoContent (by decide),
    (owner_isolation demoSim demoEmbed demoSt 1 none none none [1]).2.1
      demoContent (by decide),
    (owner_isolation demoSim demoEmbed demoSt 1 none none none [1]).2.2
      demoContent (by decide)⟩

/-- C5 counterexample: a supplied pageSize of -3 is NOT clamped into the
range 1..8 — `Math.min(8, -3)` is -3, there is no lower clamp in the
handler. -/
theorem listItems_pageSize_clamp_cex :
    effectiveLimit (some (-3)) = -3 ∧ ¬ (1 ≤ effectiveLimit (some (-3))) := by
  decide

/-- C5 (amended): the effective page is at least 1; the effective pageSize
is at most 8, equals 8 for an absent value and for 100, and lies in 1..8
for every non-negative supplied value (a negative supplied value passes
through unclamped); results are ordered most-recently-created-first, and
page 2 with supplied pageSize 100 yields exactly the 9th through 16th item
of the recency ordering. -/
theorem listItems_pagination (st : St) (uid : Nat) (pageQ limitQ : Option Int) :
    1 ≤ effectivePage pageQ ∧
    effectiveLimit limitQ ≤ 8 ∧
    (∀ n : Int, limitQ = some n → 0 ≤ n → 1 ≤ effectiveLimit limitQ) ∧
    (limitQ = none → effectiveLimit limitQ = 8) ∧
    (listItems st uid pageQ limitQ).Sorted recentFirst ∧
    listItems st uid (some 2) (some 100) =
      (((st.contents.filter (fun c => c.userId == uid)).insertionSort
          recentFirst).drop 8).take 8 := by
  refine ⟨le_max_left 1 _, min_le_left 8 _, ?_, ?_, ?_, ?_⟩
  · intro n h hn
    subst h
    simp only [effectiveLimit]
    by_cases h0 : n = 0
    · simp [h0]
    · rw [if_neg h0]
      exact le_min (by norm_num) (by omega)
  · intro h
    subst h
    decide
  · have hs := List.sorted_insertionSort recentFirst
      (st.contents.filter (fun c => c.userId == uid))
    exact hs.sublist ((List.take_sublist _ _).trans (List.drop_sublist _ _))
  · rfl

/-- Witness for C5 (amended) at page 2, pageSize 100, on the demo state. -/
theorem listItems_pagination_witness :
    1 ≤ effectiveLimit (some 100) ∧
    listItems demoSt 1 (some 2) (some 100) =
      (((demoSt.contents.filter (fun c => c.userId == 1)).insertionSort
          recentFirst).drop 8).take 8 :=
  ⟨(listItems_pagination demoSt 1 (some 2) (some 100)).2.2.1 100 rfl (by decide),
    (listItems_pagination demoSt 1 (some 2) (some 100)).2.2.2.2.2⟩

/-- Tag resolution touches only the tag collection and the id counter: the
documents, the vector index and the users are untouched. -/
theorem getTagIds_preserves (ts : List String) (st : St) :
    (getTagIds ts st).2.contents = st.contents ∧
    (getTagIds ts st).2.vectors = st.vectors ∧
    (getTagIds ts st).2.users = st.users := by
  induction ts generalizing st with
  | nil => exact ⟨rfl, rfl, rfl⟩
  | cons t rest ih =>
    cases h : st.tags.find? (fun tg => tg.title == t) with
    | some tg =>
      simp only [getTagIds, h]
      exact ih st
    | none =>
      simp only [getTagIds, h]
      exact ih _

/-- C3 counterexample: an add-item request with an invalid link is rejected,
yet the new Tag named in the request HAS been created and persisted — tag
resolution runs before link validation. -/
theorem addItem_validation_side_effect_cex :
    c3run.1 = .invalidSource ∧
    c3run.2.tags = [⟨0, "newtag"⟩] ∧
    St.empty.tags = [] := by
  decide

/-- C3 (amended): a request failing link validation (InvalidSource) or the
external metadata lookup (SourceNotFound) is rejected with no Item created
and no vector upserted, but with the tag store already updated by the
resolution step, which precedes validation and may create new Tags. -/
theorem addItem_validation_rejects_without_item_or_vector
    (ytLookup : String → Option YtSnippet) (embed : String → List ℚ)
    (co uo so : Bool) (uid : Nat) (link type title : String)
    (tagTitles : List String) (st : St) :
    (extractYouTubeVideoId link = none →
      addItem ytLookup embed co uo so uid link type title tagTitles st =
        (.invalidSource, (getTagIds tagTitles st).2)) ∧
    (∀ vid, extractYouTubeVideoId link = some vid → ytLookup vid = none →
      addItem ytLookup embed co uo so uid link type title tagTitles st =
        (.sourceNotFound, (getTagIds tagTitles st).2)) ∧
    (getTagIds tagTitles st).2.contents = st.contents ∧
    (getTagIds tagTitles st).2.vectors = st.vectors := by
  refine ⟨?_, ?_, (getTagIds_preserves tagTitles st).1,
    (getTagIds_preserves tagTitles st).2.1⟩
  · intro h
    simp [addItem, h]
  · intro vid h hy
    simp [addItem, h, hy]

/-- Witness for C3 (amended): the invalid-link and the lookup-miss rejection
on concrete requests. -/
theorem addItem_validation_rejects_witness :
    addItem demoLookup demoEmbed true true true 7 badLink "video" "demo"
      ["newtag"] St.empty =
      (.invalidSource, (getTagIds ["newtag"] St.empty).2) ∧
    addItem noLookup demoEmbed true true true 7 goodLink "video" "demo"
      ["newtag"] St.empty =
      (.sourceNotFound, (getTagIds ["newtag"] St.empty).2) :=
  ⟨(addItem_validation_rejects_without_item_or_vector demoLookup demoEmbed
      true true true 7 badLink "video" "demo" ["newtag"] St.empty).1 (by decide),
    (addItem_validation_rejects_without_item_or_vector noLookup demoEmbed
      true true true 7 goodLink "video" "demo" ["newtag"] St.empty).2.1
      "abc12345678" (by decide) rfl⟩

/-- C4 counterexample: when the Pinecone upsert fails after the Mongo create
succeeded, the handler answers with the very same generic 500 server error
it gives when the create itself fails and nothing was persisted — the two
outcomes are indistinguishable from the response, there is no
partial-success marker. -/
theorem addItem_partial_failure_response_cex :
    c4runUpsertFail.1 = .serverError ∧
    c4runCreateFail.1 = .serverError ∧
    c4runUpsertFail.1 = c4runCreateFail.1 ∧
    c4runUpsertFail.2.contents.length = 1 ∧
    c4runCreateFail.2.contents = [] := by
  decide

/-- C4 (amended): if the document create succeeded and then the vector
upsert or the vector-reference backfill fails, the created Item persists
without a vector reference; the response however is the handler's one
generic 500 server error, not a distinguishable partial success. -/
theorem addItem_partial_failure_persists_item
    (ytLookup : String → Option YtSnippet) (embed : String → List ℚ)
    (so : Bool) (uid : Nat) (link type title : String)
    (tagTitles : List String) (st : St) (vid : String) (snip : YtSnippet)
    (hx : extractYouTubeVideoId link = some vid)
    (hy : ytLookup vid = some snip) :
    (∃ c : Content, ∃ stf : St,
      addItem ytLookup embed true false so uid link type title tagTitles st =
        (.serverError, stf) ∧
      c ∈ stf.contents ∧ c.embeddingId = none ∧ c.link = link ∧
      c.userId = uid ∧ c.title = title ∧ stf.vectors = st.vectors) ∧
    (∃ c : Content, ∃ stf : St,
      addItem ytLookup embed true true false uid link type title tagTitles st =
        (.serverError, stf) ∧
      c ∈ stf.contents ∧ c.embeddingId = none ∧ c.link = link ∧
      c.userId = uid ∧ c.title = title) := by
  have hcon : ∀ cs : List Content, ∀ c : Content, c ∈ cs ++ [c] :=
    fun cs c => List.mem_append_right cs (List.mem_singleton_self c)
  constructor
  · have h : addItem ytLookup embed true false so uid link type title tagTitles st =
        (.serverError,
          { (getTagIds tagTitles st).2 with
            contents := (getTagIds tagTitles st).2.contents ++
              [⟨(getTagIds tagTitles st).2.nextId, link, type, title,
                snip.title, snip.description, snip.thumbnailUrl, none,
                (getTagIds tagTitles st).1, uid⟩],
            nextId := (getTagIds tagTitles st).2.nextId + 1 }) := by
      simp [addItem, hx, hy]
    exact ⟨_, _, h, hcon _ _, rfl, rfl, rfl, rfl,
      (getTagIds_preserves tagTitles st).2.1⟩
  · have h : addItem ytLookup embed true true false uid link type title tagTitles st =
        (.serverError,
          { (getTagIds tagTitles st).2 with
            contents := (getTagIds tagTitles st).2.contents ++
              [⟨(getTagIds tagTitles st).2.nextId, link, type, title,
                snip.title, snip.description, snip.thumbnailUrl, none,
                (getTagIds tagTitles st).1, uid⟩],
            nextId := (getTagIds tagTitles st).2.nextId + 1,
            vectors := upsertVector (getTagIds tagTitles st).2.vectors
              ⟨(getTagIds tagTitles st).2.nextId,
                embed (title ++ "," ++ snip.title ++ "," ++ snip.description),
                uid, link, type, title⟩ }) := by
      simp [addItem, hx, hy]
    exact ⟨_, _, h, hcon _ _, rfl, rfl, rfl, rfl⟩

/-- Witness for C4 (amended) on a concrete failing upsert and a concrete
failing backfill. -/
theorem addItem_partial_failure_persists_item_witness :
    (∃ c : Content, ∃ stf : St,
      addItem demoLookup demoEmbed true false true 7 goodLink "video" "demo"
        ["x"] St.empty = (.serverError, stf) ∧
      c ∈ stf.contents ∧ c.embeddingId = none ∧ c.link = goodLink ∧
      c.userId = 7 ∧ c.title = "demo" ∧ stf.vectors = St.empty.vectors) ∧
    (∃ c : Content, ∃ stf : St,
      addItem demoLookup demoEmbed true true false 7 goodLink "video" "demo"
        ["x"] St.empty = (.serverError, stf) ∧
      c ∈ stf.contents ∧ c.embeddingId = none ∧ c.link = goodLink ∧
      c.userId = 7 ∧ c.title = "demo") :=
  addItem_partial_failure_persists_item demoLookup demoEmbed true 7 goodLink
    "video" "demo" ["x"] St.empty "abc12345678"
    ⟨"yt title", "yt description", "thumb"⟩ (by decide) rfl

/-- Tag resolution never removes a tag: any tag present before `getTagIds`
is present afterwards. -/
theorem getTagIds_tags_mono (ts : List String) (st : St) (tg : Tag)
    (h : tg ∈ st.tags) : tg ∈ (getTagIds ts st).2.tags := by
  induction ts generalizing st with
  | nil => exact h
  | cons t rest ih =>
    cases hf : st.tags.find? (fun x => x.title == t) with
    | some td =>
      simp only [getTagIds, hf]
      exact ih st h
    | none =>
      simp only [getTagIds, hf]
      exact ih _ (List.mem_append_left _ h)

/-- `getTagIds` returns one identifier per input title, in the same order:
position by position, the returned id is the id of a persisted tag whose
title is the input title at that position. -/
theorem getTagIds_forall2 (ts : List String) (st : St) :
    List.Forall₂ (fun (tid : Nat) (title : String) => ∃ tg : Tag,
        tg ∈ (getTagIds ts st).2.tags ∧ tg.id = tid ∧ tg.title = title)
      (getTagIds ts st).1 ts := by
  induction ts generalizing st with
  | nil => exact List.Forall₂.nil
  | cons t rest ih =>
    cases hf : st.tags.find? (fun x => x.title == t) with
    | some td =>
      simp only [getTagIds, hf]
      refine List.Forall₂.cons ⟨td, ?_, rfl, ?_⟩ (ih st)
      · exact getTagIds_tags_mono rest st td (List.mem_of_find?_eq_some hf)
      · have hp := List.find?_some hf
        exact eq_of_beq hp
    | none =>
      simp only [getTagIds, hf]
      refine List.Forall₂.cons ⟨⟨st.nextId, t⟩, ?_, rfl, rfl⟩ (ih _)
      exact getTagIds_tags_mono rest _ _
        (List.mem_append_right _ (List.mem_singleton_self _))

/-- C8 counterexample: an add-item request with the duplicated tag-title
list x, x produces an Item whose stored tag-identifier list is 0, 0 — the
same identifier twice, not a duplicate-free set. -/
theorem addItem_duplicate_tag_ids_cex :
    ∃ c : Content, c8run.1 = .created c ∧ c.tags = [0, 0] ∧ ¬ c.tags.Nodup := by
  refine ⟨⟨1, goodLink, "video", "demo", "yt title", "yt description",
    "thumb", some 1, [0, 0], 7⟩, by decide, rfl, by decide⟩

/-- C8 (amended): `getTagIds` returns one identifier per input title in the
same order (so a repeated title repeats its identifier), and the created
Item stores exactly that identifier sequence — duplicates included. -/
theorem addItem_item_tags_are_resolved_ids
    (ytLookup : String → Option YtSnippet) (embed : String → List ℚ)
    (uid : Nat) (link type title : String) (tagTitles : List String)
    (st : St) (vid : String) (snip : YtSnippet)
    (hx : extractYouTubeVideoId link = some vid)
    (hy : ytLookup vid = some snip) :
    (getTagIds tagTitles st).1.length = tagTitles.length ∧
    List.Forall₂ (fun (tid : Nat) (t : String) => ∃ tg : Tag,
        tg ∈ (getTagIds tagTitles st).2.tags ∧ tg.id = tid ∧ tg.title = t)
      (getTagIds tagTitles st).1 tagTitles ∧
    (∃ c : Content, ∃ stf : St,
      addItem ytLookup embed true true true uid link type title tagTitles st =
        (.created c, stf) ∧
      c.tags = (getTagIds tagTitles st).1) := by
  refine ⟨(getTagIds_forall2 tagTitles st).length_eq, getTagIds_forall2 tagTitles st, ?_⟩
  have h1 : (addItem ytLookup embed true true true uid link type title tagTitles st).1 =
      .created ⟨(getTagIds tagTitles st).2.nextId, link, type, title,
        snip.title, snip.description, snip.thumbnailUrl,
        some (getTagIds tagTitles st).2.nextId,
        (getTagIds tagTitles st).1, uid⟩ := by
    simp [addItem, hx, hy]
  refine ⟨⟨(getTagIds tagTitles st).2.nextId, link, type, title,
      snip.title, snip.description, snip.thumbnailUrl,
      some (getTagIds tagTitles st).2.nextId, (getTagIds tagTitles st).1, uid⟩,
    (addItem ytLookup embed true true true uid link type title tagTitles st).2,
    ?_, rfl⟩
  rw [← h1]

/-- Witness for C8 (amended) on the duplicated-title request. -/
theorem addItem_item_tags_are_resolved_ids_witness :
    (getTagIds ["x", "x"] St.empty).1.length = 2 ∧
    (∃ c : Content, ∃ stf : St,
      addItem demoLookup demoEmbed true true true 7 goodLink "video" "demo"
        ["x", "x"] St.empty = (.created c, stf) ∧
      c.tags = (getTagIds ["x", "x"] St.empty).1) :=
  ⟨(addItem_item_tags_are_resolved_ids demoLookup demoEmbed 7 goodLink
      "video" "demo" ["x", "x"] St.empty "abc12345678"
      ⟨"yt title", "yt description", "thumb"⟩ (by decide) rfl).1,
    (addItem_item_tags_are_resolved_ids demoLookup demoEmbed 7 goodLink
      "video" "demo" ["x", "x"] St.empty "abc12345678"
      ⟨"yt title", "yt description", "thumb"⟩ (by decide) rfl).2.2⟩

/-- The tag sweep only ever removes tags. -/
theorem sweepTags_subset (contents : List Content) (cid : Nat)
    (tagIds : List Nat) (tags : List Tag) :
    ∀ tg ∈ sweepTags contents cid tagIds tags, tg ∈ tags := by
  induction tagIds generalizing tags with
  | nil => exact fun tg h => h
  | cons tid rest ih =>
    intro tg h
    simp only [sweepTags] at h
    split at h
    · exact ih tags tg h
    · exact List.mem_of_mem_filter (ih _ tg h)

/-- A tag still referenced by some item other than the one being deleted
survives the sweep. -/
theorem sweepTags_keeps_referenced (contents : List Content) (cid : Nat)
    (tagIds : List Nat) (tags : List Tag) (t : Nat)
    (href : ∃ c ∈ contents, c.id ≠ cid ∧ t ∈ c.tags) :
    ∀ tg ∈ tags, tg.id = t → tg ∈ sweepTags contents cid tagIds tags := by
  induction tagIds generalizing tags with
  | nil => exact fun tg h _ => h
  | cons tid rest ih =>
    intro tg h hid
    simp only [sweepTags]
    split
    · exact ih tags tg h hid
    · rename_i hcheck
      have htid : tid ≠ t := by
        intro he
        subst he
        apply hcheck
        rcases href with ⟨c, hc, hne, hmem⟩
        simp only [List.any_eq_true]
        refine ⟨c, hc, ?_⟩
        simp only [Bool.and_eq_true, bne_iff_ne]
        exact ⟨hne, List.elem_iff.mpr hmem⟩
      refine ih _ tg (List.mem_filter.mpr ⟨h, ?_⟩) hid
      simp only [bne_iff_ne, hid]
      exact Ne.symm htid

/-- A tag id in the sweep list that no other item references any more is
removed: no tag with that id survives the sweep. -/
theorem sweepTags_removes_unreferenced (contents : List Content) (cid : Nat)
    (tagIds : List Nat) (tags : List Tag) (t : Nat)
    (ht : t ∈ tagIds)
    (href : ¬ ∃ c ∈ contents, c.id ≠ cid ∧ t ∈ c.tags) :
    ∀ tg ∈ sweepTags contents cid tagIds tags, tg.id ≠ t := by
  induction tagIds generalizing tags with
  | nil => cases ht
  | cons tid rest ih =>
    intro tg h hid
    simp only [sweepTags] at h
    by_cases he : tid = t
    · subst he
      have hcond : ¬ ((contents.any fun c => c.id != cid && c.tags.contains tid) = true) := by
        intro hany
        apply href
        rcases List.any_eq_true.mp hany with ⟨c, hc, hp⟩
        simp only [Bool.and_eq_true, bne_iff_ne] at hp
        exact ⟨c, hc, hp.1, List.elem_iff.mp hp.2⟩
      rw [if_neg hcond] at h
      have h2 := sweepTags_subset contents cid rest _ tg h
      have h3 := (List.mem_filter.mp h2).2
      rw [hid] at h3
      simp at h3
    · have ht2 : t ∈ rest := by
        cases List.mem_cons.mp ht with
        | inl h4 => exact absurd h4.symm he
        | inr h4 => exact h4
      split at h
      · exact ih tags ht2 tg h hid
      · exact ih _ ht2 tg h hid

/-- C6: a tag referenced by two distinct items survives the deletion of the
first item (the sweep sees the other reference), and once no item other
than the remaining one references it, deleting that second item removes
the tag. -/
theorem tag_gc (pk pk2 : Bool) (st : St) (c1 c2 : Content) (t : Nat) (tg : Tag)
    (hf1 : st.contents.find? (fun c => c.id == c1.id) = some c1)
    (hc2 : c2 ∈ st.contents) (hne : c2.id ≠ c1.id)
    (ht2 : t ∈ c2.tags) (htg : tg ∈ st.tags) (hid : tg.id = t) :
    tg ∈ (deleteItem pk c1.userId (some c1.id) st).2.tags ∧
    (∀ s : St, s.contents.find? (fun c => c.id == c2.id) = some c2 →
      (¬ ∃ c ∈ s.contents, c.id ≠ c2.id ∧ t ∈ c.tags) →
      ∀ tg2 ∈ (deleteItem pk2 c2.userId (some c2.id) s).2.tags, tg2.id ≠ t) := by
  constructor
  · have h : (deleteItem pk c1.userId (some c1.id) st).2.tags =
        sweepTags st.contents c1.id c1.tags st.tags := by
      simp [deleteItem, hf1]
    rw [h]
    exact sweepTags_keeps_referenced st.contents c1.id c1.tags st.tags t
      ⟨c2, hc2, hne, ht2⟩ tg htg hid
  · intro s hf hn tg2 h2 hid2
    have h : (deleteItem pk2 c2.userId (some c2.id) s).2.tags =
        sweepTags s.contents c2.id c2.tags s.tags := by
      simp [deleteItem, hf]
    rw [h] at h2
    exact sweepTags_removes_unreferenced s.contents c2.id c2.tags s.tags t
      ht2 hn tg2 h2 hid2

/-- Witness for C6: two concrete items share tag 0; deleting the first
leaves the tag in the store, deleting the second removes it. -/
theorem tag_gc_witness :
    (⟨0, "x"⟩ : Tag) ∈ gcSt1.tags ∧
    (⟨0, "x"⟩ : Tag) ∉ (deleteItem true 1 (some 2) gcSt1).2.tags := by
  have h := tag_gc true true gcSt gcContent1 gcContent2 0 ⟨0, "x"⟩
    (by decide) (by decide) (by decide) (by decide) (by decide) rfl
  exact ⟨h.1, fun hmem => h.2 gcSt1 (by decide) (by decide) ⟨0, "x"⟩ hmem rfl⟩

/-- A filterMap by a function that is `some` on every element preserves the
length. -/
theorem filterMap_length_of_isSome {α β : Type} (f : α → Option β) :
    ∀ l : List α, (∀ a ∈ l, (f a).isSome) → (l.filterMap f).length = l.length := by
  intro l
  induction l with
  | nil => intro _; rfl
  | cons a rest ih =>
    intro h
    rcases Option.isSome_iff_exists.mp (h a (List.mem_cons_self a rest)) with ⟨b, hb⟩
    simp only [List.filterMap_cons, hb, List.length_cons]
    rw [ih (fun x hx => h x (List.mem_cons_of_mem a hx))]

/-- Every item returned by the hydration query carries a vector reference
drawn from the requested id set. -/
theorem findByVectorRefs_refs (st : St) (ids : List Nat) (uid : Nat) :
    ∀ c ∈ findByVectorRefs st ids uid, ∃ e, c.embeddingId = some e ∧ e ∈ ids := by
  intro c hc
  have h := (List.mem_filter.mp hc).2
  simp only [Bool.and_eq_true] at h
  cases hid : c.embeddingId with
  | none => rw [hid] at h; simp at h
  | some e =>
    refine ⟨e, rfl, ?_⟩
    have h1 := h.1
    rw [hid] at h1
    exact List.elem_iff.mp h1

/-- When the items' vector references are pairwise distinct (which addItem
maintains, each item referencing its own id), the hydration query returns
at most one item per requested id. -/
theorem findByVectorRefs_length_le (st : St) (ids : List Nat) (uid : Nat)
    (hnd : (st.contents.filterMap (fun c => c.embeddingId)).Nodup) :
    (findByVectorRefs st ids uid).length ≤ ids.length := by
  have hsub : List.Sublist
      ((findByVectorRefs st ids uid).filterMap (fun c => c.embeddingId))
      (st.contents.filterMap (fun c => c.embeddingId)) :=
    List.Sublist.filterMap _ (List.filter_sublist _)
  have hnd2 : ((findByVectorRefs st ids uid).filterMap
      (fun c => c.embeddingId)).Nodup := hnd.sublist hsub
  have hlen : ((findByVectorRefs st ids uid).filterMap
      (fun c => c.embeddingId)).length = (findByVectorRefs st ids uid).length := by
    refine filterMap_length_of_isSome _ _ (fun a ha => ?_)
    rcases findByVectorRefs_refs st ids uid a ha with ⟨e, he, _⟩
    simp [he]
  have hss : (findByVectorRefs st ids uid).filterMap (fun c => c.embeddingId) ⊆ ids := by
    intro e he
    rcases List.mem_filterMap.mp he with ⟨c, hc, hce⟩
    rcases findByVectorRefs_refs st ids uid c hc with ⟨e2, he2, hin⟩
    rw [he2] at hce
    injection hce with h3
    subst h3
    exact hin
  calc (findByVectorRefs st ids uid).length = _ := hlen.symm
    _ ≤ ids.length := (hnd2.subperm hss).length_le

/-- C1: the index is asked for at most 5 candidates; every returned item
corresponds to a candidate whose similarity score is at least the 0.4
threshold; at most 5 items come back (given the store invariant that vector
references are pairwise distinct); and when no candidate passes the
threshold the result is the empty list as a success, not an error. -/
theorem search_threshold_and_topK (sim : List ℚ → List ℚ → ℚ)
    (embed : String → List ℚ) (st : St) (uid : Nat) (qt : String)
    (hq : qt ≠ "")
    (hnd : (st.contents.filterMap (fun c => c.embeddingId)).Nodup) :
    (vectorQuery sim st.vectors (embed qt) 5).length ≤ 5 ∧
    (∀ res, search sim embed st uid (some qt) = .ok res →
      res.length ≤ 5 ∧
      ∀ c ∈ res, ∃ e s, c.embeddingId = some e ∧ scoreThreshold ≤ s ∧
        (e, s) ∈ vectorQuery sim st.vectors (embed qt) 5) ∧
    ((vectorQuery sim st.vectors (embed qt) 5).filter
        (fun m => scoreThreshold ≤ m.2) = [] →
      search sim embed st uid (some qt) = .ok []) := by
  refine ⟨List.length_take_le 5 _, ?_, ?_⟩
  · intro res h
    simp only [search, if_neg hq] at h
    split at h
    · injection h with h2
      subst h2
      exact ⟨by norm_num, fun c hc => absurd hc (List.not_mem_nil c)⟩
    · injection h with h2
      subst h2
      rename_i hne
      constructor
      · calc (findByVectorRefs st _ uid).length
            ≤ (((vectorQuery sim st.vectors (embed qt) 5).filter
                (fun m => decide (scoreThreshold ≤ m.2))).map
                  (fun m => m.1)).length :=
              findByVectorRefs_length_le st _ uid hnd
          _ = ((vectorQuery sim st.vectors (embed qt) 5).filter
                (fun m => decide (scoreThreshold ≤ m.2))).length := List.length_map _ _
          _ ≤ (vectorQuery sim st.vectors (embed qt) 5).length :=
              List.length_filter_le _ _
          _ ≤ 5 := List.length_take_le 5 _
      · intro c hc
        rcases findByVectorRefs_refs st _ uid c hc with ⟨e, he, hin⟩
        rcases List.mem_map.mp hin with ⟨m, hm, hme⟩
        have hmq : m ∈ vectorQuery sim st.vectors (embed qt) 5 :=
          (List.mem_filter.mp hm).1
        have hsc : scoreThreshold ≤ m.2 :=
          of_decide_eq_true (List.mem_filter.mp hm).2
        exact ⟨e, m.2, he, hsc, by rw [← hme]; exact hmq⟩
  · intro h
    simp [search, if_neg hq, h]

/-- Witness for C1 on the demo state: the query returns owner 1's item, at
most 5 results, and both length bounds hold. -/
theorem search_threshold_and_topK_witness :
    (vectorQuery demoSim demoSt.vectors (demoEmbed "q") 5).length ≤ 5 ∧
    ([demoContent] : List Content).length ≤ 5 :=
  ⟨(search_threshold_and_topK demoSim demoEmbed demoSt 1 "q" (by decide)
      (by decide)).1,
    ((search_threshold_and_topK demoSim demoEmbed demoSt 1 "q" (by decide)
      (by decide)).2.1 [demoContent] (by decide)).1⟩

/-- Once the embedder is set, no step of any caller changes the module
state: no further load ever starts. -/
theorem embedStep_st_of_set (sys : EmbedSys) (i : Nat)
    (h : sys.st.embedderSet = true) : (embedStep sys i).st = sys.st := by
  unfold embedStep
  cases hg : sys.callers.get? i with
  | none => rfl
  | some pc =>
    cases pc with
    | entry => simp [h]
    | awaitingLoad =>
      show (⟨true, sys.st.loads⟩ : EmbedderState) = sys.st
      cases hst : sys.st with
      | mk b l =>
        rw [hst] at h
        cases h
        rfl
    | ready => rfl

/-- Runs from an initialized module never change the module state. -/
theorem embedRun_st_of_set (sys : EmbedSys) (acts : List Nat)
    (h : sys.st.embedderSet = true) : (embedRun sys acts).st = sys.st := by
  induction acts generalizing sys with
  | nil => rfl
  | cons a rest ih =>
    have h1 := embedStep_st_of_set sys a h
    have h2 : (embedStep sys a).st.embedderSet = true := by rw [h1]; exact h
    simp only [embedRun]
    rw [ih _ h2, h1]

/-- Splitting a schedule splits the run. -/
theorem embedRun_append (sys : EmbedSys) (l1 l2 : List Nat) :
    embedRun sys (l1 ++ l2) = embedRun (embedRun sys l1) l2 := by
  induction l1 generalizing sys with
  | nil => rfl
  | cons a rest ih =>
    simp only [List.cons_append, embedRun]
    exact ih _

/-- C10 counterexample: two callers both arrive before initialization
completes (both run their null check first); each starts its own pipeline
load, so the process has started 2 loads where the claim allows one shared
initialization. -/
theorem getEmbedding_double_load_cex :
    (embedRun (initialEmbedSys 2) [0, 1]).st.loads = 2 ∧
    ¬ (embedRun (initialEmbedSys 2) [0, 1]).st.loads ≤ 1 := by
  decide

/-- C10 (amended): loading is lazy — a fresh process has started no load —
and at most one load happens as long as calls do not overlap: under the
strictly sequential schedule only the first caller loads, and once the
embedder is set no schedule ever starts another load. Overlapping first
callers, however, are not protected (see the counterexample). -/
theorem getEmbedding_lazy_single_load_sequential (n : Nat) (acts : List Nat)
    (sys : EmbedSys) (hset : sys.st.embedderSet = true) :
    (initialEmbedSys n).st.loads = 0 ∧
    (embedRun sys acts).st = sys.st ∧
    (embedRun (initialEmbedSys n) (seqSchedule n)).st.loads ≤ 1 := by
  refine ⟨rfl, embedRun_st_of_set sys acts hset, ?_⟩
  cases n with
  | zero => decide
  | succ k =>
    have hsch : seqSchedule (k + 1) =
        [0, 0] ++ ((List.range k).map (fun i => [i + 1, i + 1])).flatten := by
      simp [seqSchedule, List.range_succ_eq_map, Function.comp_def]
    have h1 : (embedRun (initialEmbedSys (k + 1)) [0, 0]).st = ⟨true, 1⟩ := by
      simp [initialEmbedSys, List.replicate_succ, embedRun, embedStep]
    rw [hsch, embedRun_append]
    rw [embedRun_st_of_set _ _ (by rw [h1]), h1]

/-- Witness for C10 (amended): a fresh 2-caller process has no load yet, an
initialized module stays at its single load whatever else runs, and the
sequential schedule of 2 callers performs exactly one load. -/
theorem getEmbedding_lazy_single_load_sequential_witness :
    (initialEmbedSys 2).st.loads = 0 ∧
    (embedRun ⟨⟨true, 1⟩, [.entry]⟩ [0]).st = ⟨true, 1⟩ ∧
    (embedRun (initialEmbedSys 2) (seqSchedule 2)).st.loads ≤ 1 :=
  getEmbedding_lazy_single_load_sequential 2 [0] ⟨⟨true, 1⟩, [.entry]⟩ rfl

end SecondBrain
